import Mathlib

/-!
# WebIfcDll boundary layer (`src/WebIfcDll/Api.cpp`)

A shallow embedding of the C-callable wrapper around the web-ifc engine:
the `Api` → `Model` → `Geometry` → `Mesh` hierarchy, the flattening done by
the `Model` constructor, and the accessors exported from the DLL.

Conventions of the embedding

* `uint32_t` identifiers and type codes are natural numbers; the wrapper
  never does arithmetic on them, it only stores and compares them.
* A `double` is represented by its 64-bit pattern (a natural number); the
  wrapper only copies doubles, it never computes with them.
* A value returned as C `int` is an `Int` obtained from the `size_t` value
  by `toInt32`, the two's-complement conversion to 32 bits.
* A pointer that may be null is an `Option`; `none` is `nullptr`.  An
  operation whose C++ behaviour is undefined (null dereference, index out of
  range) returns `none`.
* Heap objects that are never modified after they are created (`Geometry`,
  `Mesh`) are represented by their values.
* The engine classes (`IfcLoader`, `IfcGeometryProcessor`,
  `IfcSchemaManager`, `ModelManager`) are not part of this source file; they
  are records of the member functions that the wrapper calls, and every
  property below holds for all such records.  Each member function is a
  function of its arguments: the engine session answers the same call the
  same way while the wrapper uses it, and every call returns.
* `IfcLoader::GetLineType` is the one engine function whose answer for an
  unrecognised identifier matters to the wrapper; it is modelled from the
  specification (see `IfcLoader.GetLineType`).
* A reference borrowed from the engine (`Mesh::geometry`) is represented by
  the value it refers to.
* `malloc` is a parameter telling which allocation sizes succeed.
-/

namespace WebIfcDll

/-! ## Machine integers -/

/-- Conversion of a `size_t` value to a 32-bit C `int` (two's complement). -/
def toInt32 (n : Nat) : Int :=
  if n % 2 ^ 32 < 2 ^ 31 then ((n % 2 ^ 32 : Nat) : Int)
  else ((n % 2 ^ 32 : Nat) : Int) - 2 ^ 32

/-- The bit pattern of a C `double`. -/
abbrev double := Nat

/-! ## Engine interfaces (parameters of the wrapper) -/

/-- An engine `IfcGeometry`: the two public buffers read by the wrapper. -/
structure IfcGeometry where
  vertexData : List double
  indexData : List Nat
  deriving DecidableEq, Repr

/-- The engine colour of a placed geometry (`glm::dvec4`, fields r g b a). -/
structure dvec4 where
  r : double
  g : double
  b : double
  a : double
  deriving DecidableEq, Repr

/-- A `std::array<double, 16>`. -/
abbrev array16 := { l : List double // l.length = 16 }

/-- The value-initialised `std::array<double, 16>` (sixteen zeros). -/
def array16.zero : array16 := ⟨List.replicate 16 0, by decide⟩

/-- An engine `IfcPlacedGeometry`: the members read by `Model::ToMesh`. -/
structure IfcPlacedGeometry where
  color : dvec4
  flatTransformation : array16
  geometryExpressID : Nat
  deriving DecidableEq, Repr

/-- An engine `IfcFlatMesh`: the member read by the `Model` constructor. -/
structure IfcFlatMesh where
  geometries : List IfcPlacedGeometry
  deriving DecidableEq, Repr

/-- The member functions of the engine `IfcLoader` used by the wrapper.
`GetDecodedStringArgument expressID i` is the string decoded right after
`MoveToLineArgument(expressID, i)`; `ifcType expressID` is the structural type
code stored with the entity `expressID`. -/
structure IfcLoader where
  GetExpressIDsWithType : Nat → List Nat
  IsValidExpressID : Nat → Bool
  ifcType : Nat → Nat
  GetDecodedStringArgument : Nat → Nat → String

/-- The member functions of the engine `IfcGeometryProcessor` used by the
wrapper. -/
structure IfcGeometryProcessor where
  GetFlatMesh : Nat → IfcFlatMesh
  GetGeometry : Nat → IfcGeometry

/-- The member functions of the engine `IfcSchemaManager` used by the
wrapper. -/
structure IfcSchemaManager where
  GetIfcElementList : List Nat
  IfcTypeCodeToType : Nat → String

/-! ## Records of the wrapper -/

/-- Colour data: `struct Color`. -/
structure Color where
  R : double
  G : double
  B : double
  A : double
  deriving DecidableEq, Repr

/-- The default constructor `Color()`. -/
def Color.default : Color := { R := 0, G := 0, B := 0, A := 0 }

/-- The constructor `Color(r, g, b, a)`. -/
def Color.new (r g b a : double) : Color := { R := r, G := g, B := b, A := a }

/-- One placed instance of geometry: `struct Mesh`. -/
structure Mesh where
  geometry : Option IfcGeometry
  color : Color
  id : Nat
  transform : array16
  deriving DecidableEq, Repr

/-- The constructor `Mesh(meshId)` with the default member initialisers. -/
def Mesh.new (meshId : Nat) : Mesh :=
  { geometry := none, color := Color.default, id := meshId, transform := array16.zero }

/-- All placed instances of one entity: `struct Geometry`. -/
structure Geometry where
  id : Nat
  flatMesh : Option IfcFlatMesh
  meshes : List Mesh
  deriving DecidableEq, Repr

/-- The constructor `Geometry(geoId)` with the default member initialisers. -/
def Geometry.new (geoId : Nat) : Geometry :=
  { id := geoId, flatMesh := none, meshes := [] }

/-! ## `std::unordered_map<uint32_t, Geometry*>`

The map is a list of entries with pairwise different keys.  Iteration order
is not used by the wrapper. -/

/-- The entries of a `std::unordered_map<uint32_t, Geometry*>`. -/
abbrev unordered_map := List (Nat × Geometry)

/-- The statement `m[k] = v`: replaces the value of an existing key, adds a
new entry otherwise. -/
def unordered_map.assign : unordered_map → Nat → Geometry → unordered_map
  | [], k, v => [(k, v)]
  | (k0, v0) :: rest, k, v =>
    if k0 = k then (k, v) :: rest else (k0, v0) :: unordered_map.assign rest k v

/-- The call `m.find(k)`; `none` is `m.end()`. -/
def unordered_map.find : unordered_map → Nat → Option Geometry
  | [], _ => none
  | (k0, v0) :: rest, k => if k0 = k then some v0 else unordered_map.find rest k

/-- The call `m.size()`. -/
def unordered_map.size (m : unordered_map) : Nat := m.length

/-! ## `struct Model` -/

/-- The wrapper's `struct Model`. -/
structure Model where
  id : Nat
  loader : IfcLoader
  geometryProcessor : IfcGeometryProcessor
  schemaManager : Option IfcSchemaManager
  geometryList : List Geometry
  geometries : unordered_map

/-- The method `Model::ToMesh`; it reads only the `geometryProcessor` member. -/
def Model.ToMesh (geometryProcessor : IfcGeometryProcessor) (pg : IfcPlacedGeometry) : Mesh :=
  let r := Mesh.new pg.geometryExpressID
  let r := { r with color := Color.new pg.color.r pg.color.g pg.color.b pg.color.a }
  let r := { r with geometry := some (geometryProcessor.GetGeometry pg.geometryExpressID) }
  let r := { r with transform := pg.flatTransformation }
  r

/-- The body of the inner loop of the constructor, for one identifier `eId`. -/
def Model.addEntity (m : Model) (eId : Nat) : Model :=
  let flatMesh := m.geometryProcessor.GetFlatMesh eId
  let g := flatMesh.geometries.foldl
    (fun (g : Geometry) placedGeom =>
      { g with meshes := g.meshes ++ [Model.ToMesh m.geometryProcessor placedGeom] })
    (Geometry.new eId)
  { m with geometries := m.geometries.assign eId g, geometryList := m.geometryList ++ [g] }

/-- The constructor `Model::Model` (`new ::Model(...)`).  A null `schemas` is dereferenced by the
outer loop, which is undefined behaviour (`none`). -/
def Model.new (schemas : Option IfcSchemaManager) (loader : IfcLoader)
    (processor : IfcGeometryProcessor) (modelId : Nat) : Option Model :=
  match schemas with
  | none => none
  | some s =>
    let this : Model :=
      { id := modelId, loader := loader, geometryProcessor := processor,
        schemaManager := some s, geometryList := [], geometries := [] }
    some (s.GetIfcElementList.foldl
      (fun m type => (loader.GetExpressIDsWithType type).foldl Model.addEntity m) this)

/-- The method `Model::GetGeometry`. -/
def Model.GetGeometry (m : Model) (geoId : Nat) : Option Geometry :=
  m.geometries.find geoId

/-- A `std::ifstream` after `open`: whether the file could be opened, and
the bytes that can be read from it. -/
structure ifstream where
  is_open : Bool
  content : List Nat

/-- The call `ifs.open(fileName, std::ifstream::in)` on a fresh stream.  The
file system maps a path to the bytes of the file, `none` when the file
cannot be opened; a stream that failed to open yields no bytes. -/
def ifstream.open (fs : String → Option (List Nat)) (fileName : String) : ifstream :=
  match fs fileName with
  | some bytes => { is_open := true, content := bytes }
  | none => { is_open := false, content := [] }

/-- The member functions of the engine `ModelManager` used by the wrapper:
`CreateModel` is the identifier given to the next model, `LoadFile id ifs` is
the loader of model `id` after `GetIfcLoader(id)->LoadFile(ifs)`, and
`GetGeometryProcessor id loader` is the processor of that model. -/
structure ModelManager where
  CreateModel : Nat
  LoadFile : Nat → ifstream → IfcLoader
  GetGeometryProcessor : Nat → IfcLoader → IfcGeometryProcessor

/-- The wrapper's `struct Api`; both members are created with `new`. -/
structure Api where
  manager : ModelManager
  schemaManager : IfcSchemaManager

/-- The method `Api::LoadModel`.  The result is the pointer returned by
`new ::Model(...)`; nothing in the body tests the stream or the loader. -/
def Api.LoadModel (fs : String → Option (List Nat)) (api : Api) (fileName : String) :
    Option Model :=
  let modelId := api.manager.CreateModel
  let ifs := ifstream.open fs fileName
  let loader := api.manager.LoadFile modelId ifs
  Model.new (some api.schemaManager) loader
    (api.manager.GetGeometryProcessor modelId loader) modelId

/-! ## Exported C functions -/

/-- The exported `LoadModel`. -/
def LoadModel (fs : String → Option (List Nat)) (api : Api) (fileName : String) :
    Option Model :=
  api.LoadModel fs fileName

/-- The exported `GetTransform`: the sixteen doubles behind the pointer. -/
def GetTransform (_api : Api) (mesh : Mesh) : List double := mesh.transform.val

/-- The exported `GetColor`: the four doubles starting at `&mesh->color.R`. -/
def GetColor (_api : Api) (mesh : Mesh) : List double :=
  [mesh.color.R, mesh.color.G, mesh.color.B, mesh.color.A]

/-- The exported `GetGeometryFromId`; `none` is the null pointer. -/
def GetGeometryFromId (_api : Api) (model : Model) (id : Nat) : Option Geometry :=
  model.GetGeometry id

/-- The exported `GetNumGeometries`. -/
def GetNumGeometries (_api : Api) (model : Model) : Int :=
  toInt32 model.geometries.size

/-- The exported `GetGeometryFromIndex`.  The `int32_t` index is converted to
`size_t` by `operator[]`; an index outside the list is undefined behaviour
(`none`). -/
def GetGeometryFromIndex (_api : Api) (model : Model) (index : Int) : Option Geometry :=
  if 0 ≤ index then model.geometryList[index.toNat]? else none

/-- The exported `GetGeometryId`. -/
def GetGeometryId (_api : Api) (geom : Geometry) : Nat := geom.id

/-- The exported `GetNumMeshes`. -/
def GetNumMeshes (_api : Api) (geom : Geometry) : Int := toInt32 geom.meshes.length

/-- The exported `GetMesh`; an index outside the list is undefined behaviour
(`none`). -/
def GetMesh (_api : Api) (geom : Geometry) (index : Int) : Option Mesh :=
  if 0 ≤ index then geom.meshes[index.toNat]? else none

/-- The exported `GetMeshId`. -/
def GetMeshId (_api : Api) (mesh : Mesh) : Nat := mesh.id

/-- The exported `GetNumVertices`; a null `mesh->geometry` is undefined
behaviour (`none`). -/
def GetNumVertices (_api : Api) (mesh : Mesh) : Option Int :=
  match mesh.geometry with
  | none => none
  | some geometry => some (toInt32 (geometry.vertexData.length / 6))

/-- The exported `GetVertices`: the doubles of the buffer behind the returned
pointer; a null `mesh->geometry` is undefined behaviour (`none`). -/
def GetVertices (_api : Api) (mesh : Mesh) : Option (List double) :=
  match mesh.geometry with
  | none => none
  | some geometry => some geometry.vertexData

/-- The exported `GetNumIndices`; a null `mesh->geometry` is undefined
behaviour (`none`). -/
def GetNumIndices (_api : Api) (mesh : Mesh) : Option Int :=
  match mesh.geometry with
  | none => none
  | some geometry => some (toInt32 geometry.indexData.length)

/-- The exported `GetIndices`: the buffer behind the returned pointer; a null
`mesh->geometry` is undefined behaviour (`none`). -/
def GetIndices (_api : Api) (mesh : Mesh) : Option (List Nat) :=
  match mesh.geometry with
  | none => none
  | some geometry => some geometry.indexData

/-- The identifiers visited by the two nested loops of the constructor: the
loader's enumeration for each type of the element list, in order. -/
def enumeratedIds (schemas : IfcSchemaManager) (loader : IfcLoader) : List Nat :=
  schemas.GetIfcElementList.flatMap loader.GetExpressIDsWithType

/-- The keys of a map. -/
def unordered_map.keys (m : unordered_map) : List Nat := m.map Prod.fst

/-- The `Geometry` that one pass of the inner loop body builds for the
identifier `eId`: one `Mesh` for each placement of its flat mesh. -/
def entityGeometry (processor : IfcGeometryProcessor) (eId : Nat) : Geometry :=
  { id := eId, flatMesh := none,
    meshes := (processor.GetFlatMesh eId).geometries.map (Model.ToMesh processor) }

/-! ## Concrete engine sessions used to exercise the definitions -/

/-- Sixteen doubles: the bit patterns 1 to 16. -/
def sampleTransform : array16 := ⟨List.range' 1 16, by decide⟩

/-- A placement with colour bit patterns 10, 20, 30, 40 on geometry 100. -/
def samplePlaced : IfcPlacedGeometry :=
  { color := { r := 10, g := 20, b := 30, a := 40 },
    flatTransformation := sampleTransform, geometryExpressID := 100 }

/-- A schema table whose element list holds the type codes 1 and 2. -/
def sampleSchema : IfcSchemaManager :=
  { GetIfcElementList := [1, 2],
    IfcTypeCodeToType := fun code => if code = 1 then "IFCWALL" else "IFCSLAB" }

/-- A loader with entities 5 and 7 of type 1 and entity 9 of type 2. -/
def sampleLoader : IfcLoader :=
  { GetExpressIDsWithType := fun type =>
      if type = 1 then [5, 7] else if type = 2 then [9] else [],
    IsValidExpressID := fun id => id = 5 || id = 7 || id = 9,
    ifcType := fun id => if id = 5 ∨ id = 7 then 1 else if id = 9 then 2 else 0,
    GetDecodedStringArgument := fun id _ => if id = 5 then "guid-5" else "guid-x" }

/-- A processor: entity 5 has one placement, every other entity has none;
every geometry has one vertex record and three indices. -/
def sampleProcessor : IfcGeometryProcessor :=
  { GetFlatMesh := fun id => { geometries := if id = 5 then [samplePlaced] else [] },
    GetGeometry := fun _ => { vertexData := [0, 0, 0, 0, 0, 0], indexData := [0, 0, 0] } }

/-- A loader that enumerates entity 5 twice for type 1. -/
def repeatingLoader : IfcLoader :=
  { sampleLoader with GetExpressIDsWithType := fun type => if type = 1 then [5, 5] else [] }

/-- A loader that recognises no identifier; the stored type codes are all 1. -/
def unvalidatedLoader : IfcLoader :=
  { GetExpressIDsWithType := fun _ => [],
    IsValidExpressID := fun _ => false,
    ifcType := fun _ => 1,
    GetDecodedStringArgument := fun _ _ => "" }

/-- A manager whose loader holds the sample entities when the stream was
opened and no entity otherwise. -/
def sampleManager : ModelManager :=
  { CreateModel := 0,
    LoadFile := fun _ ifs =>
      if ifs.is_open then sampleLoader
      else { sampleLoader with GetExpressIDsWithType := fun _ => [],
                               IsValidExpressID := fun _ => false,
                               ifcType := fun _ => 0 },
    GetGeometryProcessor := fun _ _ => sampleProcessor }

/-- An `Api` over the sample manager and schema table. -/
def sampleApi : Api := { manager := sampleManager, schemaManager := sampleSchema }

/-- The mesh built for the sample placement. -/
def sampleMesh : Mesh :=
  { geometry := some { vertexData := [0, 0, 0, 0, 0, 0], indexData := [0, 0, 0] },
    color := { R := 10, G := 20, B := 30, A := 40 }, id := 100, transform := sampleTransform }

/-- The model built from the sample session: entity 5 with one mesh,
entities 7 and 9 without meshes. -/
def sampleModel : Model :=
  { id := 0, loader := sampleLoader, geometryProcessor := sampleProcessor,
    schemaManager := some sampleSchema,
    geometryList :=
      [{ id := 5, flatMesh := none, meshes := [sampleMesh] },
       { id := 7, flatMesh := none, meshes := [] },
       { id := 9, flatMesh := none, meshes := [] }],
    geometries :=
      [(5, { id := 5, flatMesh := none, meshes := [sampleMesh] }),
       (7, { id := 7, flatMesh := none, meshes := [] }),
       (9, { id := 9, flatMesh := none, meshes := [] })] }

/-- The model built when the loader enumerates entity 5 twice: two list
entries, one map entry. -/
def repeatingModel : Model :=
  { id := 0, loader := repeatingLoader, geometryProcessor := sampleProcessor,
    schemaManager := some sampleSchema,
    geometryList :=
      [{ id := 5, flatMesh := none, meshes := [sampleMesh] },
       { id := 5, flatMesh := none, meshes := [sampleMesh] }],
    geometries := [(5, { id := 5, flatMesh := none, meshes := [sampleMesh] })] }

/-- The model built over the loader that knows no entity. -/
def unvalidatedModel : Model :=
  { id := 0, loader := unvalidatedLoader, geometryProcessor := sampleProcessor,
    schemaManager := some sampleSchema, geometryList := [], geometries := [] }

/-- A processor whose vertex buffers hold seven doubles. -/
def oddProcessor : IfcGeometryProcessor :=
  { sampleProcessor with
    GetGeometry := fun _ => { vertexData := [0, 0, 0, 0, 0, 0, 0], indexData := [0, 0, 0] } }

/-- A processor whose index buffers hold `2 ^ 31` entries. -/
def hugeProcessor : IfcGeometryProcessor :=
  { sampleProcessor with
    GetGeometry := fun _ =>
      { vertexData := [0, 0, 0, 0, 0, 0], indexData := List.replicate (2 ^ 31) 0 } }

/-- A loader with the `2 ^ 31` entities `0, 1, ...` of type 1. -/
def hugeLoader : IfcLoader :=
  { sampleLoader with
    GetExpressIDsWithType := fun type => if type = 1 then List.range (2 ^ 31) else [] }

/-- A file system with the single file `model.ifc`. -/
def sampleFs : String → Option (List Nat) :=
  fun path => if path = "model.ifc" then some [73, 70, 67] else none

end WebIfcDll

/-! ## Lemmas -/

namespace WebIfcDll

theorem toInt32_of_lt {n : Nat} (h : n < 2 ^ 31) : toInt32 n = (n : Int) := by
  have h2 : n % 2 ^ 32 = n := Nat.mod_eq_of_lt (by omega)
  unfold toInt32
  rw [h2, if_pos h]

theorem toInt32_le (n : Nat) : toInt32 n ≤ (n : Int) := by
  unfold toInt32
  have h1 : n % 2 ^ 32 ≤ n := Nat.mod_le _ _
  split <;> omega

theorem toInt32_zero : toInt32 0 = 0 := by decide

namespace unordered_map

theorem find_assign (m : unordered_map) (k : Nat) (v : Geometry) (k2 : Nat) :
    (m.assign k v).find k2 = if k = k2 then some v else m.find k2 := by
  induction m with
  | nil => simp [assign, find]
  | cons e rest ih =>
    obtain ⟨k0, v0⟩ := e
    by_cases h : k0 = k
    · subst h
      by_cases h2 : k0 = k2 <;> simp [assign, find, h2]
    · by_cases h2 : k0 = k2
      · subst h2
        simp [assign, find, h, Ne.symm h]
      · simp [assign, find, h, h2, ih]

theorem mem_keys_assign (m : unordered_map) (k : Nat) (v : Geometry) (k2 : Nat) :
    k2 ∈ (m.assign k v).keys ↔ k2 = k ∨ k2 ∈ m.keys := by
  induction m with
  | nil => simp [assign, keys]
  | cons e rest ih =>
    obtain ⟨k0, v0⟩ := e
    by_cases h : k0 = k
    · subst h
      simp [assign, keys]
    · simp only [keys] at ih
      simp [assign, keys, h, ih]
      tauto

theorem nodup_keys_assign (m : unordered_map) (k : Nat) (v : Geometry)
    (hm : m.keys.Nodup) : (m.assign k v).keys.Nodup := by
  induction m with
  | nil => simp [assign, keys]
  | cons e rest ih =>
    obtain ⟨k0, v0⟩ := e
    have hm2 : k0 ∉ keys rest ∧ (keys rest).Nodup := by
      simpa [keys] using hm
    by_cases h : k0 = k
    · subst h
      simpa [assign, keys] using hm
    · have hk : k0 ∉ (assign rest k v).keys := by
        rw [mem_keys_assign]
        intro hc
        rcases hc with hc | hc
        · exact h hc
        · exact hm2.1 hc
      have hr := ih hm2.2
      simp only [keys] at hk hr
      simp [assign, keys, h, hk, hr]

theorem find_eq_none_iff (m : unordered_map) (k : Nat) :
    m.find k = none ↔ k ∉ m.keys := by
  induction m with
  | nil => simp [find, keys]
  | cons e rest ih =>
    obtain ⟨k0, v0⟩ := e
    simp only [keys] at ih
    by_cases h : k0 = k
    · simp [find, keys, h]
    · simp [find, keys, h, ih, Ne.symm h]

theorem find_foldl_assign (G : Nat → Geometry) (ids : List Nat) (m : unordered_map) (k : Nat) :
    (ids.foldl (fun mp e => assign mp e (G e)) m).find k
      = if k ∈ ids then some (G k) else m.find k := by
  induction ids generalizing m with
  | nil => simp
  | cons e rest ih =>
    rw [List.foldl_cons, ih, find_assign]
    by_cases h1 : k ∈ rest
    · simp [h1]
    · by_cases h2 : e = k
      · subst h2
        simp
      · simp [h1, h2, Ne.symm h2]

theorem mem_keys_foldl_assign (G : Nat → Geometry) (ids : List Nat) (m : unordered_map)
    (k : Nat) :
    k ∈ (ids.foldl (fun mp e => assign mp e (G e)) m).keys ↔ k ∈ ids ∨ k ∈ m.keys := by
  induction ids generalizing m with
  | nil => simp
  | cons e rest ih =>
    rw [List.foldl_cons, ih, mem_keys_assign]
    simp only [List.mem_cons]
    tauto

theorem nodup_keys_foldl_assign (G : Nat → Geometry) (ids : List Nat) (m : unordered_map)
    (hm : m.keys.Nodup) : (ids.foldl (fun mp e => assign mp e (G e)) m).keys.Nodup := by
  induction ids generalizing m with
  | nil => simpa using hm
  | cons e rest ih =>
    rw [List.foldl_cons]
    exact ih _ (nodup_keys_assign m e (G e) hm)

theorem size_foldl_assign (G : Nat → Geometry) (ids : List Nat) :
    (ids.foldl (fun mp e => assign mp e (G e)) []).size = ids.dedup.length := by
  have hn := nodup_keys_foldl_assign G ids [] (by simp [keys])
  have hset : (ids.foldl (fun mp e => assign mp e (G e)) []).keys.toFinset = ids.toFinset := by
    ext k
    rw [List.mem_toFinset, List.mem_toFinset, mem_keys_foldl_assign]
    simp [keys]
  have hlen : (ids.foldl (fun mp e => assign mp e (G e)) []).size
      = (ids.foldl (fun mp e => assign mp e (G e)) []).keys.length := by
    simp [size, keys]
  rw [hlen, ← List.toFinset_card_of_nodup hn, hset, List.card_toFinset]

end unordered_map

theorem foldl_meshes (f : IfcPlacedGeometry → Mesh) (l : List IfcPlacedGeometry)
    (g : Geometry) :
    l.foldl (fun (g : Geometry) pg => { g with meshes := g.meshes ++ [f pg] }) g
      = { g with meshes := g.meshes ++ l.map f } := by
  induction l generalizing g with
  | nil => simp
  | cons pg rest ih => simp [ih]

theorem addEntity_eq (m : Model) (eId : Nat) :
    Model.addEntity m eId
      = { m with
          geometries := m.geometries.assign eId (entityGeometry m.geometryProcessor eId),
          geometryList := m.geometryList ++ [entityGeometry m.geometryProcessor eId] } := by
  simp [Model.addEntity, foldl_meshes, entityGeometry, Geometry.new]

theorem foldl_addEntity (ids : List Nat) (m : Model) :
    ids.foldl Model.addEntity m
      = { m with
          geometries := ids.foldl
            (fun mp e => unordered_map.assign mp e (entityGeometry m.geometryProcessor e))
            m.geometries,
          geometryList := m.geometryList ++ ids.map (entityGeometry m.geometryProcessor) } := by
  induction ids generalizing m with
  | nil => simp
  | cons e rest ih =>
    rw [List.foldl_cons, ih, addEntity_eq]
    simp

theorem foldl_foldl_flatMap {β : Type} (xs : List Nat) (g : Nat → List Nat)
    (f : β → Nat → β) (b : β) :
    xs.foldl (fun m t => (g t).foldl f m) b = (xs.flatMap g).foldl f b := by
  induction xs generalizing b with
  | nil => simp
  | cons x rest ih => simp [List.flatMap_cons, List.foldl_append, ih]

theorem new_eq (s : IfcSchemaManager) (loader : IfcLoader) (processor : IfcGeometryProcessor)
    (modelId : Nat) :
    Model.new (some s) loader processor modelId
      = some { id := modelId, loader := loader, geometryProcessor := processor,
               schemaManager := some s,
               geometryList := (enumeratedIds s loader).map (entityGeometry processor),
               geometries := (enumeratedIds s loader).foldl
                 (fun mp e => unordered_map.assign mp e (entityGeometry processor e)) [] } := by
  unfold Model.new
  simp only []
  rw [foldl_foldl_flatMap, foldl_addEntity]
  simp [enumeratedIds]

theorem sampleModel_eq :
    Model.new (some sampleSchema) sampleLoader sampleProcessor 0 = some sampleModel := rfl

theorem repeatingModel_eq :
    Model.new (some sampleSchema) repeatingLoader sampleProcessor 0 = some repeatingModel := rfl

theorem unvalidatedModel_eq :
    Model.new (some sampleSchema) unvalidatedLoader sampleProcessor 0 = some unvalidatedModel :=
  rfl

theorem size_le_length_of_new {s : IfcSchemaManager} {loader : IfcLoader}
    {processor : IfcGeometryProcessor} {modelId : Nat} {m : Model}
    (h : Model.new (some s) loader processor modelId = some m) :
    m.geometries.size = (enumeratedIds s loader).dedup.length
      ∧ m.geometryList.length = (enumeratedIds s loader).length
      ∧ m.geometries.size ≤ m.geometryList.length := by
  rw [new_eq] at h
  injection h with h
  subst h
  have hd := (List.dedup_sublist (enumeratedIds s loader)).length_le
  simp only [unordered_map.size_foldl_assign, List.length_map]
  exact ⟨trivial, trivial, hd⟩

/-! ## C1: geometry count, map size and list length -/

theorem enumeratedIds_hugeLoader :
    enumeratedIds sampleSchema hugeLoader = List.range (2 ^ 31) := by
  have h1 : hugeLoader.GetExpressIDsWithType 1 = List.range (2 ^ 31) := by
    unfold hugeLoader
    dsimp only
    rw [if_pos rfl]
  have h2 : hugeLoader.GetExpressIDsWithType 2 = [] := by
    unfold hugeLoader
    dsimp only
    rw [if_neg (by decide)]
  unfold enumeratedIds
  rw [show sampleSchema.GetIfcElementList = [1, 2] from rfl, List.flatMap_cons,
    List.flatMap_cons, List.flatMap_nil, h1, h2, List.append_nil, List.append_nil]

/-- C1, failing inputs: when the loader enumerates entity 5 twice, the ordered
list has two entries while the map has one, and `GetNumGeometries` reports 1,
not the list length 2; when the loader enumerates `2 ^ 31` distinct entities,
the map has `2 ^ 31` entries and `GetNumGeometries` reports a negative
number. -/
theorem numGeometries_ne_list_length_when_id_repeats :
    (Model.new (some sampleSchema) repeatingLoader sampleProcessor 0 = some repeatingModel
      ∧ GetNumGeometries sampleApi repeatingModel = 1
      ∧ repeatingModel.geometries.size = 1
      ∧ repeatingModel.geometryList.length = 2
      ∧ GetNumGeometries sampleApi repeatingModel
          ≠ (repeatingModel.geometryList.length : Int))
    ∧ ∃ m, Model.new (some sampleSchema) hugeLoader sampleProcessor 0 = some m
        ∧ m.geometries.size = 2 ^ 31
        ∧ GetNumGeometries sampleApi m = -(2 ^ 31)
        ∧ GetNumGeometries sampleApi m ≠ (m.geometries.size : Int) := by
  refine ⟨⟨rfl, by decide, rfl, rfl, by decide⟩, ?_⟩
  obtain ⟨m, hm⟩ : ∃ m, Model.new (some sampleSchema) hugeLoader sampleProcessor 0 = some m :=
    ⟨_, new_eq sampleSchema hugeLoader sampleProcessor 0⟩
  obtain ⟨h1, _, _⟩ := size_le_length_of_new hm
  rw [enumeratedIds_hugeLoader, List.dedup_eq_self.mpr (List.nodup_range _),
    List.length_range] at h1
  refine ⟨m, hm, h1, ?_, ?_⟩
  · unfold GetNumGeometries
    rw [h1]
    decide
  · unfold GetNumGeometries
    rw [h1]
    decide

/-- C1, amended: for every constructed Model, `GetNumGeometries` equals the
number of map entries whenever that number fits a 32-bit `int`; the number of
map entries is the number of distinct enumerated identifiers, never exceeds the
length of the ordered list, and equals it exactly when no identifier is
enumerated twice. -/
theorem numGeometries_eq_map_size_and_list_length_iff_nodup (api : Api)
    (s : IfcSchemaManager) (loader : IfcLoader) (processor : IfcGeometryProcessor)
    (modelId : Nat) (m : Model)
    (h : Model.new (some s) loader processor modelId = some m) :
    (m.geometries.size < 2 ^ 31 → GetNumGeometries api m = (m.geometries.size : Int))
      ∧ m.geometries.size = (enumeratedIds s loader).dedup.length
      ∧ m.geometries.size ≤ m.geometryList.length
      ∧ (m.geometries.size = m.geometryList.length ↔ (enumeratedIds s loader).Nodup) := by
  obtain ⟨h1, h2, h3⟩ := size_le_length_of_new h
  refine ⟨fun hlt => toInt32_of_lt hlt, h1, h3, ?_⟩
  rw [h1, h2]
  constructor
  · intro he
    exact List.dedup_eq_self.mp ((List.dedup_sublist _).eq_of_length he)
  · intro hn
    rw [List.dedup_eq_self.mpr hn]

/-- C1, amended, on the sample session (three distinct identifiers): the
count, the map size and the list length are all 3. -/
theorem numGeometries_eq_map_size_and_list_length_iff_nodup_witness :
    Model.new (some sampleSchema) sampleLoader sampleProcessor 0 = some sampleModel
      ∧ (enumeratedIds sampleSchema sampleLoader).Nodup
      ∧ GetNumGeometries sampleApi sampleModel = (sampleModel.geometries.size : Int)
      ∧ sampleModel.geometries.size = sampleModel.geometryList.length :=
  ⟨rfl, by decide,
    (numGeometries_eq_map_size_and_list_length_iff_nodup sampleApi sampleSchema sampleLoader
      sampleProcessor 0 sampleModel rfl).1 (by decide),
    (numGeometries_eq_map_size_and_list_length_iff_nodup sampleApi sampleSchema sampleLoader
      sampleProcessor 0 sampleModel rfl).2.2.2.mpr (by decide)⟩

/-! ## C10: the reported count never exceeds the list -/

/-- C10: for every constructed Model, also when an identifier is enumerated
more than once, `GetNumGeometries` is at most the length of the ordered list,
and `GetGeometryFromIndex` is in bounds (returns a Geometry) at every index
`i` with `0 ≤ i < GetNumGeometries`. -/
theorem numGeometries_le_list_length_indices_in_bounds (api : Api)
    (s : IfcSchemaManager) (loader : IfcLoader) (processor : IfcGeometryProcessor)
    (modelId : Nat) (m : Model)
    (h : Model.new (some s) loader processor modelId = some m) :
    GetNumGeometries api m ≤ (m.geometryList.length : Int)
      ∧ ∀ i : Int, 0 ≤ i → i < GetNumGeometries api m →
          ∃ g, GetGeometryFromIndex api m i = some g := by
  obtain ⟨_, _, h3⟩ := size_le_length_of_new h
  have hle : GetNumGeometries api m ≤ (m.geometryList.length : Int) :=
    le_trans (toInt32_le _) (by exact_mod_cast h3)
  refine ⟨hle, fun i h0 hi => ?_⟩
  have hlt : i.toNat < m.geometryList.length := by omega
  exact ⟨m.geometryList[i.toNat], by
    simp [GetGeometryFromIndex, h0, List.getElem?_eq_getElem hlt]⟩

/-- C10 on the session that enumerates entity 5 twice: the count 1 is below
the list length 2 and index 0 is in bounds. -/
theorem numGeometries_le_list_length_indices_in_bounds_witness :
    Model.new (some sampleSchema) repeatingLoader sampleProcessor 0 = some repeatingModel
      ∧ (0 : Int) < GetNumGeometries sampleApi repeatingModel
      ∧ GetNumGeometries sampleApi repeatingModel
          ≤ (repeatingModel.geometryList.length : Int)
      ∧ ∃ g, GetGeometryFromIndex sampleApi repeatingModel 0 = some g :=
  ⟨rfl, by decide,
    (numGeometries_le_list_length_indices_in_bounds sampleApi sampleSchema repeatingLoader
      sampleProcessor 0 repeatingModel rfl).1,
    (numGeometries_le_list_length_indices_in_bounds sampleApi sampleSchema repeatingLoader
      sampleProcessor 0 repeatingModel rfl).2 0 (by decide) (by decide)⟩

/-! ## C2: index access and id access agree on the identifier -/

/-- C2: for every constructed Model and every index `i` with
`0 ≤ i < GetNumGeometries`, the Geometry at index `i` has an identifier whose
id lookup is non-null and returns a Geometry with that same identifier. -/
theorem index_then_id_lookup_round_trip (api : Api)
    (s : IfcSchemaManager) (loader : IfcLoader) (processor : IfcGeometryProcessor)
    (modelId : Nat) (m : Model)
    (h : Model.new (some s) loader processor modelId = some m)
    (i : Int) (h0 : 0 ≤ i) (hi : i < GetNumGeometries api m) :
    ∃ g, GetGeometryFromIndex api m i = some g
      ∧ ∃ g2, GetGeometryFromId api m (GetGeometryId api g) = some g2
          ∧ GetGeometryId api g2 = GetGeometryId api g := by
  obtain ⟨_, h2, h3⟩ := size_le_length_of_new h
  have hle : GetNumGeometries api m ≤ (m.geometryList.length : Int) :=
    le_trans (toInt32_le _) (by exact_mod_cast h3)
  have hlt : i.toNat < (enumeratedIds s loader).length := by omega
  rw [new_eq] at h
  injection h with h
  subst h
  refine ⟨entityGeometry processor (enumeratedIds s loader)[i.toNat], ?_,
    entityGeometry processor (enumeratedIds s loader)[i.toNat], ?_, rfl⟩
  · simp [GetGeometryFromIndex, h0, List.getElem?_eq_getElem hlt]
  · simp only [GetGeometryFromId, Model.GetGeometry, GetGeometryId,
      unordered_map.find_assign, unordered_map.find_foldl_assign]
    have hid : (entityGeometry processor (enumeratedIds s loader)[i.toNat]).id
        = (enumeratedIds s loader)[i.toNat] := rfl
    rw [hid, if_pos (List.getElem_mem _)]

/-- C2 on the sample session at index 1: the Geometry there has identifier 7
and the id lookup of 7 returns a Geometry with identifier 7. -/
theorem index_then_id_lookup_round_trip_witness :
    Model.new (some sampleSchema) sampleLoader sampleProcessor 0 = some sampleModel
      ∧ (0 : Int) ≤ 1 ∧ (1 : Int) < GetNumGeometries sampleApi sampleModel
      ∧ ∃ g, GetGeometryFromIndex sampleApi sampleModel 1 = some g
          ∧ ∃ g2, GetGeometryFromId sampleApi sampleModel (GetGeometryId sampleApi g) = some g2
              ∧ GetGeometryId sampleApi g2 = GetGeometryId sampleApi g :=
  ⟨rfl, by decide, by decide,
    index_then_id_lookup_round_trip sampleApi sampleSchema sampleLoader sampleProcessor 0
      sampleModel rfl 1 (by decide) (by decide)⟩

/-! ## C6: id lookup misses exactly on identifiers that were not enumerated -/

/-- C6: for every constructed Model and every identifier, `GetGeometryFromId`
returns the null sentinel if and only if the identifier is not among those
enumerated by the loader for the types of the element list. -/
theorem getGeometryFromId_null_iff_not_enumerated (api : Api)
    (s : IfcSchemaManager) (loader : IfcLoader) (processor : IfcGeometryProcessor)
    (modelId : Nat) (m : Model)
    (h : Model.new (some s) loader processor modelId = some m) (id : Nat) :
    GetGeometryFromId api m id = none ↔ id ∉ enumeratedIds s loader := by
  rw [new_eq] at h
  injection h with h
  subst h
  simp only [GetGeometryFromId, Model.GetGeometry, unordered_map.find_foldl_assign]
  by_cases hm : id ∈ enumeratedIds s loader
  · simp [hm]
  · simp [hm, unordered_map.find]

/-- C6 on the sample session: identifier 6 is not enumerated and its lookup
is null; identifier 7 is enumerated and its lookup is not null. -/
theorem getGeometryFromId_null_iff_not_enumerated_witness :
    Model.new (some sampleSchema) sampleLoader sampleProcessor 0 = some sampleModel
      ∧ 6 ∉ enumeratedIds sampleSchema sampleLoader
      ∧ GetGeometryFromId sampleApi sampleModel 6 = none
      ∧ 7 ∈ enumeratedIds sampleSchema sampleLoader
      ∧ GetGeometryFromId sampleApi sampleModel 7 ≠ none :=
  ⟨rfl, by decide,
    (getGeometryFromId_null_iff_not_enumerated sampleApi sampleSchema sampleLoader
      sampleProcessor 0 sampleModel rfl 6).mpr (by decide),
    by decide,
    fun hn => (getGeometryFromId_null_iff_not_enumerated sampleApi sampleSchema sampleLoader
      sampleProcessor 0 sampleModel rfl 7).mp hn (by decide)⟩

/-! ## C8: the ordered list follows the enumeration -/

/-- C8: for every Engine session the constructor returns a Model whose
ordered Geometry list carries, in order, exactly the identifiers enumerated by
the loader for the types of the element list (one Geometry per enumerated
identifier); when the loader enumerates nothing for every type of the element
list, the Model has zero geometries. -/
theorem geometry_ids_follow_enumeration (api : Api)
    (s : IfcSchemaManager) (loader : IfcLoader) (processor : IfcGeometryProcessor)
    (modelId : Nat) :
    ∃ m, Model.new (some s) loader processor modelId = some m
      ∧ m.geometryList.map (GetGeometryId api)
          = s.GetIfcElementList.flatMap loader.GetExpressIDsWithType
      ∧ ((∀ type ∈ s.GetIfcElementList, loader.GetExpressIDsWithType type = []) →
          GetNumGeometries api m = 0 ∧ m.geometryList = []) := by
  refine ⟨_, new_eq s loader processor modelId, ?_, ?_⟩
  · simp only [List.map_map]
    have hid : GetGeometryId api ∘ entityGeometry processor = id := by
      funext e
      rfl
    rw [hid, List.map_id]
    rfl
  · intro hnone
    have hnil : enumeratedIds s loader = [] := by
      unfold enumeratedIds
      rw [List.flatMap_eq_nil_iff]
      exact hnone
    simp only [hnil]
    exact ⟨toInt32_zero, rfl⟩

/-- C8 on the session whose loader enumerates no entity of the element-list
types: the Model is built and has zero geometries. -/
theorem geometry_ids_follow_enumeration_witness :
    (∀ type ∈ sampleSchema.GetIfcElementList,
        unvalidatedLoader.GetExpressIDsWithType type = [])
      ∧ ∃ m, Model.new (some sampleSchema) unvalidatedLoader sampleProcessor 0 = some m
          ∧ GetNumGeometries sampleApi m = 0 := by
  refine ⟨fun _ _ => rfl, ?_⟩
  obtain ⟨m, hm, _, h0⟩ :=
    geometry_ids_follow_enumeration sampleApi sampleSchema unvalidatedLoader sampleProcessor 0
  exact ⟨m, hm, (h0 (fun _ _ => rfl)).1⟩

/-! ## C7: one Mesh per placement instance -/

/-- C7: for every identifier enumerated during construction there is a
Geometry with that identifier in the ordered list and under that key in the
map; the mesh list of any such Geometry has one Mesh per placement instance of
the flat mesh of the entity, in the same order, each with the placement's
sixteen transform doubles and its colour as R, G, B, A; with zero placement
instances the Geometry is still present and `GetNumMeshes` is 0. -/
theorem meshes_follow_placements (api : Api)
    (s : IfcSchemaManager) (loader : IfcLoader) (processor : IfcGeometryProcessor)
    (modelId : Nat) (m : Model)
    (h : Model.new (some s) loader processor modelId = some m) (eId : Nat)
    (he : eId ∈ s.GetIfcElementList.flatMap loader.GetExpressIDsWithType) :
    (∃ g ∈ m.geometryList, GetGeometryId api g = eId)
      ∧ (∃ g, GetGeometryFromId api m eId = some g)
      ∧ ∀ g, (g ∈ m.geometryList ∧ GetGeometryId api g = eId)
            ∨ GetGeometryFromId api m eId = some g →
          g.meshes.length = (processor.GetFlatMesh eId).geometries.length
          ∧ g.meshes.map (fun mesh => (GetTransform api mesh, GetColor api mesh))
              = (processor.GetFlatMesh eId).geometries.map
                  (fun pg => (pg.flatTransformation.val,
                    [pg.color.r, pg.color.g, pg.color.b, pg.color.a]))
          ∧ ((processor.GetFlatMesh eId).geometries = [] → GetNumMeshes api g = 0) := by
  rw [new_eq] at h
  injection h with h
  subst h
  have he2 : eId ∈ enumeratedIds s loader := he
  have hfind : GetGeometryFromId api
      { id := modelId, loader := loader, geometryProcessor := processor,
        schemaManager := some s,
        geometryList := (enumeratedIds s loader).map (entityGeometry processor),
        geometries := (enumeratedIds s loader).foldl
          (fun mp e => unordered_map.assign mp e (entityGeometry processor e)) [] } eId
      = some (entityGeometry processor eId) := by
    simp only [GetGeometryFromId, Model.GetGeometry, unordered_map.find_foldl_assign]
    rw [if_pos he2]
  refine ⟨⟨entityGeometry processor eId, List.mem_map.mpr ⟨eId, he2, rfl⟩, rfl⟩,
    ⟨_, hfind⟩, ?_⟩
  intro g hg
  have hgeq : g = entityGeometry processor eId := by
    rcases hg with ⟨hmem, hid⟩ | hf
    · obtain ⟨e, _, rfl⟩ := List.mem_map.mp hmem
      have : e = eId := hid
      rw [this]
    · rw [hfind] at hf
      injection hf with hf
      exact hf.symm
  subst hgeq
  refine ⟨by simp [entityGeometry], ?_, ?_⟩
  · simp only [entityGeometry, List.map_map]
    rfl
  · intro hnil
    simp only [GetNumMeshes, entityGeometry, hnil, List.map_nil, List.length_nil]
    exact toInt32_zero

/-- C7 on the sample session: entity 7 is enumerated and has no placement, its
Geometry is found by id and has `GetNumMeshes` 0; entity 5 is enumerated with
one placement and its Geometry has one Mesh. -/
theorem meshes_follow_placements_witness :
    Model.new (some sampleSchema) sampleLoader sampleProcessor 0 = some sampleModel
      ∧ 7 ∈ sampleSchema.GetIfcElementList.flatMap sampleLoader.GetExpressIDsWithType
      ∧ (sampleProcessor.GetFlatMesh 7).geometries = []
      ∧ GetGeometryFromId sampleApi sampleModel 7 = some (Geometry.new 7)
      ∧ GetNumMeshes sampleApi (Geometry.new 7) = 0
      ∧ 5 ∈ sampleSchema.GetIfcElementList.flatMap sampleLoader.GetExpressIDsWithType
      ∧ ∃ g, GetGeometryFromId sampleApi sampleModel 5 = some g ∧ g.meshes.length = 1 := by
  refine ⟨rfl, by decide, rfl, rfl, ?_, by decide, ?_⟩
  · exact ((meshes_follow_placements sampleApi sampleSchema sampleLoader sampleProcessor 0
      sampleModel rfl 7 (by decide)).2.2 (Geometry.new 7) (Or.inr rfl)).2.2 rfl
  · obtain ⟨g, hg⟩ := (meshes_follow_placements sampleApi sampleSchema sampleLoader
      sampleProcessor 0 sampleModel rfl 5 (by decide)).2.1
    exact ⟨g, hg, ((meshes_follow_placements sampleApi sampleSchema sampleLoader
      sampleProcessor 0 sampleModel rfl 5 (by decide)).2.2 g (Or.inr hg)).1⟩

/-! ## C3: vertex and index counts against the raw buffers -/

/-- C3, failing inputs: a mesh built over a vertex buffer of seven doubles
has `GetNumVertices` 1, and 1 * 6 is not 7; a mesh built over an index buffer
of `2 ^ 31` entries has a negative `GetNumIndices`. -/
theorem numVertices_times_six_ne_buffer_length :
    GetVertices sampleApi (Model.ToMesh oddProcessor samplePlaced)
        = some [0, 0, 0, 0, 0, 0, 0]
      ∧ GetNumVertices sampleApi (Model.ToMesh oddProcessor samplePlaced) = some 1
      ∧ (1 : Int) * 6 ≠ (([0, 0, 0, 0, 0, 0, 0] : List double).length : Int)
      ∧ GetIndices sampleApi (Model.ToMesh hugeProcessor samplePlaced)
          = some (List.replicate (2 ^ 31) 0)
      ∧ GetNumIndices sampleApi (Model.ToMesh hugeProcessor samplePlaced)
          = some (-(2 ^ 31))
      ∧ (-(2 ^ 31) : Int) ≠ ((List.replicate (2 ^ 31) (0 : Nat)).length : Int) := by
  refine ⟨rfl, by decide, by decide, rfl, ?_, ?_⟩
  · simp only [GetNumIndices, Model.ToMesh, hugeProcessor, List.length_replicate]
    decide
  · rw [List.length_replicate]
    decide

/-- C3, amended: for every mesh with a non-null geometry reference whose
vertex buffer holds a whole number of 6-double records and whose counts fit a
32-bit `int`, `GetNumVertices * 6` is the length of the raw vertex buffer and
`GetNumIndices` is the length of the raw index buffer. -/
theorem numVertices_times_six_eq_buffer_length (api : Api) (mesh : Mesh)
    (geometry : IfcGeometry) (hg : mesh.geometry = some geometry)
    (h6 : 6 ∣ geometry.vertexData.length)
    (hv : geometry.vertexData.length / 6 < 2 ^ 31)
    (hi : geometry.indexData.length < 2 ^ 31) :
    (∃ n, GetNumVertices api mesh = some n
        ∧ ∃ buffer, GetVertices api mesh = some buffer ∧ n * 6 = (buffer.length : Int))
      ∧ ∃ k, GetNumIndices api mesh = some k
          ∧ ∃ buffer, GetIndices api mesh = some buffer ∧ k = (buffer.length : Int) := by
  have hnv : GetNumVertices api mesh = some (toInt32 (geometry.vertexData.length / 6)) := by
    simp only [GetNumVertices, hg]
  have hvs : GetVertices api mesh = some geometry.vertexData := by
    simp only [GetVertices, hg]
  have hni : GetNumIndices api mesh = some (toInt32 geometry.indexData.length) := by
    simp only [GetNumIndices, hg]
  have his : GetIndices api mesh = some geometry.indexData := by
    simp only [GetIndices, hg]
  refine ⟨⟨_, hnv, _, hvs, ?_⟩, ⟨_, hni, _, his, ?_⟩⟩
  · rw [toInt32_of_lt hv]
    have := Nat.div_mul_cancel h6
    exact_mod_cast this
  · exact toInt32_of_lt hi

/-- C3, amended, on the sample mesh: one vertex record of six doubles and
three indices. -/
theorem numVertices_times_six_eq_buffer_length_witness :
    sampleMesh.geometry = some { vertexData := [0, 0, 0, 0, 0, 0], indexData := [0, 0, 0] }
      ∧ 6 ∣ ([0, 0, 0, 0, 0, 0] : List double).length
      ∧ ((∃ n, GetNumVertices sampleApi sampleMesh = some n
          ∧ ∃ buffer, GetVertices sampleApi sampleMesh = some buffer
              ∧ n * 6 = (buffer.length : Int))
        ∧ ∃ k, GetNumIndices sampleApi sampleMesh = some k
            ∧ ∃ buffer, GetIndices sampleApi sampleMesh = some buffer
                ∧ k = (buffer.length : Int)) :=
  ⟨rfl, by decide,
    numVertices_times_six_eq_buffer_length sampleApi sampleMesh
      { vertexData := [0, 0, 0, 0, 0, 0], indexData := [0, 0, 0] } rfl (by decide) (by decide)
      (by decide)⟩

/-! ## C4: metadata queries on an unrecognised identifier -/

/-- C9, failing input: the path `missing.ifc` cannot be opened, yet
`LoadModel` returns a Model handle (with no geometries). -/
theorem loadModel_returns_model_when_open_fails :
    sampleFs "missing.ifc" = none
      ∧ (ifstream.open sampleFs "missing.ifc").is_open = false
      ∧ ∃ m, LoadModel sampleFs sampleApi "missing.ifc" = some m
          ∧ GetNumGeometries sampleApi m = 0 := by
  refine ⟨by decide, by rfl, _, rfl, ?_⟩
  decide

/-- C9, amended: `LoadModel` never fails and never tests the stream or the
loader: for every file system, context and path it returns a Model handle
built over the loader as the engine left it after the load attempt, whether or
not the stream could be opened. -/
theorem loadModel_always_returns_model (fs : String → Option (List Nat)) (api : Api)
    (fileName : String) :
    ∃ m, LoadModel fs api fileName = some m
      ∧ m.id = api.manager.CreateModel
      ∧ m.loader = api.manager.LoadFile api.manager.CreateModel (ifstream.open fs fileName)
      ∧ m.schemaManager = some api.schemaManager
      ∧ m.geometryList.map (GetGeometryId api)
          = api.schemaManager.GetIfcElementList.flatMap m.loader.GetExpressIDsWithType := by
  refine ⟨_, new_eq _ _ _ _, rfl, rfl, rfl, ?_⟩
  simp only [List.map_map]
  have hid : GetGeometryId api ∘ entityGeometry
      (api.manager.GetGeometryProcessor api.manager.CreateModel
        (api.manager.LoadFile api.manager.CreateModel (ifstream.open fs fileName))) = id := by
    funext e
    rfl
  rw [hid, List.map_id]
  rfl

end WebIfcDll
